import Mathlib

/-!
# Verification of the Tmux-Orchestrator task routing and fallback engine

Shallow embedding of the decision logic of `src/lib/OpenCodeAgent.js`
(`execute`, `isRateLimitError`, `recommendModelForTask`, `switchModel`) and
`src/orchestrator.js` (`determineAgency`), together with theorems settling the
specification claims about them.

JavaScript strings are modelled as Lean `String`s; `toLowerCase()` is modelled
character-wise (`Char.toLower`), matching its behaviour on the ASCII strings
the code compares.  The external OpenCode/Claude network calls are abstracted
as an oracle mapping the attempt position and model name to a result.
-/

namespace TmuxOrch

/-- The character data of a JS string after `toLowerCase()`. -/
def lowerData (s : String) : List Char := s.data.map Char.toLower

/-- Executable check that `pat` is an initial segment of `l`. -/
def isPrefixB : List Char → List Char → Bool
  | [], _ => true
  | _ :: _, [] => false
  | a :: as, b :: bs => a == b && isPrefixB as bs

/-- Executable check that `pat` occurs contiguously inside `l`
(JS `String.prototype.includes`). -/
def isInfixB (pat : List Char) : List Char → Bool
  | [] => pat.isEmpty
  | l@(_ :: rest) => isPrefixB pat l || isInfixB pat rest

/-- JS `s.includes(pat)` where `s` has already been lower-cased:
substring containment on character lists. -/
def includesLower (s : String) (pat : String) : Bool :=
  isInfixB pat.data (lowerData s)

/-- Source `OpenCodeAgent.isRateLimitError` (src/lib/OpenCodeAgent.js:244-250):
lower-cases the error message and checks the four rate-limit substrings. -/
def isRateLimitError (msg : String) : Bool :=
  includesLower msg "rate limit" ||
  includesLower msg "429" ||
  includesLower msg "too many requests" ||
  includesLower msg "quota exceeded"

/-- The four transient-failure marker substrings named by the spec. -/
def transientMarkers : List String :=
  ["rate limit", "429", "too many requests", "quota exceeded"]

/-- Spec-level reading of "the message, compared case-insensitively, contains
the substring `p`": some contiguous run of characters of `msg` lower-cases to
`p`'s characters. -/
def containsCaseInsensitive (msg p : String) : Prop :=
  ∃ l a b, msg.data = a ++ l ++ b ∧ l.map Char.toLower = p.data

/-! ## Data model: model registry and agent configuration -/

/-- One entry of `config.models` in `agent-config.json`: the backend catalog
consumed by `OpenCodeAgent`.  `tier` is the raw string compared against
`"free"` / `"paid"` in the source. -/
structure ModelInfo where
  model : String
  tier : String
  capabilities : List String
  provider : String := ""
deriving Repr, DecidableEq

/-- Registry `config.models`: a JS object, modelled as an association list in key
insertion order (string keys preserve insertion order in JS). -/
structure Config where
  models : List (String × ModelInfo)
deriving Repr, DecidableEq

/-- JS property lookup `this.config.models[name]`. -/
def Config.find (cfg : Config) (name : String) : Option ModelInfo :=
  (cfg.models.find? (fun p => p.1 == name)).map Prod.snd

/-- The per-agent configuration fields `execute` reads
(`this.agentConfig`). -/
structure AgentConfig where
  allowFallback : Bool
  fallbackModels : List String
deriving Repr, DecidableEq

/-- The caller preferences object of `recommendModelForTask`. -/
structure Preferences where
  preferFree : Bool := false
  preferPaid : Bool := false
deriving Repr, DecidableEq

/-! ## Capability scorer (`recommendModelForTask`,
src/lib/OpenCodeAgent.js:268-331) -/

/-- Source `needsReasoning` (src/lib/OpenCodeAgent.js:273-274). -/
def needsReasoning (task : String) : Bool :=
  includesLower task "plan" || includesLower task "architect" ||
  includesLower task "design" || includesLower task "analyze"

/-- Source `needsSpeed` (src/lib/OpenCodeAgent.js:275-276). -/
def needsSpeed (task : String) : Bool :=
  includesLower task "quick" || includesLower task "fast" ||
  includesLower task "simple"

/-- Source `needsCoding` (src/lib/OpenCodeAgent.js:277-278). -/
def needsCoding (task : String) : Bool :=
  includesLower task "code" || includesLower task "implement" ||
  includesLower task "function" || includesLower task "class"

/-- Source `isComplex` (src/lib/OpenCodeAgent.js:279). -/
def isComplexTask (task : String) : Bool :=
  task.length > 200 || includesLower task "complex"

/-- The score the loop body of `recommendModelForTask`
(src/lib/OpenCodeAgent.js:283-313) assigns to one model. -/
def scoreModel (task : String) (prefs : Preferences) (mi : ModelInfo) : Int :=
  (if needsCoding task && mi.capabilities.contains "coding" then 5 else 0) +
  (if needsReasoning task && mi.capabilities.contains "reasoning" then 4 else 0) +
  (if needsSpeed task && mi.capabilities.contains "fast-responses" then 3 else 0) +
  (if isComplexTask task && mi.tier == "paid" then 3
   else if !isComplexTask task && mi.tier == "free" then 2 else 0) +
  (if prefs.preferFree && mi.tier == "free" then 5 else 0) +
  (if prefs.preferPaid && mi.tier == "paid" then 5 else 0)

/-- A scored candidate: registry position, model name, score. -/
structure Candidate where
  idx : Nat
  model : String
  score : Int
deriving Repr, DecidableEq

/-- Ranking order: higher score first; among equal scores, lower registry
position first.  JS `Array.prototype.sort` is stable, so its result under
comparator `(a, b) => b[1] - a[1]` is exactly a sort by this total order. -/
def candLE (a b : Candidate) : Prop :=
  b.score < a.score ∨ (a.score = b.score ∧ a.idx ≤ b.idx)

instance : DecidableRel candLE := fun a b => by
  unfold candLE; infer_instance

instance : IsTotal Candidate candLE where
  total a b := by unfold candLE; omega

instance : IsTrans Candidate candLE where
  trans a b c hab hbc := by unfold candLE at *; omega

/-- The registry scored in insertion order (the entries of the `scores` map of
`recommendModelForTask`, before sorting). -/
def scoredList (cfg : Config) (task : String) (prefs : Preferences) :
    List Candidate :=
  cfg.models.enum.map fun p => ⟨p.1, p.2.1, scoreModel task prefs p.2.2⟩

/-- Source `sortedScores` (src/lib/OpenCodeAgent.js:316-318): stable descending sort
by score, realised as a sort by `candLE`. -/
def rankCandidates (cfg : Config) (task : String) (prefs : Preferences) :
    List Candidate :=
  (scoredList cfg task prefs).insertionSort candLE

/-- The object returned by `recommendModelForTask`
(src/lib/OpenCodeAgent.js:322-331).  On an empty registry the source crashes
when destructuring `sortedScores[0]` (which is `undefined`); that failure is
modelled as `none`. -/
structure Recommendation where
  recommendedModel : String
  score : Int
  alternatives : List (String × Int)
deriving Repr, DecidableEq

/-- Source `recommendModelForTask` (src/lib/OpenCodeAgent.js:268-331). -/
def recommendModelForTask (cfg : Config) (task : String) (prefs : Preferences) :
    Option Recommendation :=
  match rankCandidates cfg task prefs with
  | [] => none
  | best :: rest =>
    some ⟨best.model, best.score, (rest.take 3).map fun c => (c.model, c.score)⟩

/-! ## Model switching (`switchModel`, src/lib/OpenCodeAgent.js:259-266) -/

/-- The mutable fields of an `OpenCodeAgent` instance touched after
initialisation. -/
structure AgentState where
  currentModel : String
  sessionId : Option String := none
  fallbackCount : Nat := 0
deriving Repr, DecidableEq

/-- Source `switchModel` (src/lib/OpenCodeAgent.js:259-266): throws before any
assignment if the name is absent, otherwise assigns `currentModel`. -/
def switchModel (cfg : Config) (st : AgentState) (name : String) :
    Except String AgentState :=
  if (cfg.find name).isSome then
    .ok { st with currentModel := name }
  else
    .error ("Model " ++ name ++ " not found in configuration")

/-! ## Execution with fallback (`execute`, src/lib/OpenCodeAgent.js:90-165)

The network round trip performed by `executeWithOpenCode` /
`executeWithClaude` is abstracted as an oracle from the attempt position in
the chain (0 = first invocation, `i + 1` = `i`-th fallback slot) and the model
name to the raw outcome of the provider call. -/

/-- A failed-invocation entry of `execution.attempts`. -/
structure Attempt where
  model : String
  error : String
deriving Repr, DecidableEq

/-- The `execution` object built by `execute`. -/
structure Execution where
  model : String
  success : Bool
  fallbackUsed : Bool
  fallbackModel : Option String
  result : Option String
  errorMsg : Option String
  attempts : List Attempt
deriving Repr, DecidableEq

instance {ε α : Type} [DecidableEq ε] [DecidableEq α] :
    DecidableEq (Except ε α) := fun
  | .ok a, .ok b =>
    if h : a = b then .isTrue (by rw [h])
    else .isFalse (by intro hh; cases hh; exact h rfl)
  | .ok _, .error _ => .isFalse (by intro h; cases h)
  | .error _, .ok _ => .isFalse (by intro h; cases h)
  | .error a, .error b =>
    if h : a = b then .isTrue (by rw [h])
    else .isFalse (by intro hh; cases hh; exact h rfl)

/-- Result of one call to `execute`: the value returned or error thrown, the
`execution` record it built, whether that record was pushed onto
`executionHistory`, and the models actually invoked (i.e. for which a
provider call was issued), in order. -/
structure ExecOutcome where
  ret : Except String String
  exec : Execution
  pushed : Bool
  invoked : List String
deriving Repr, DecidableEq

/-- Source `executeWithModel` (src/lib/OpenCodeAgent.js:168-186) at chain position
`k`: config lookup, then the provider call via the oracle, with the error
wrapping done by `executeWithOpenCode` (src/lib/OpenCodeAgent.js:189-205,
every error wrapped) and `executeWithClaude` (src/lib/OpenCodeAgent.js:208-231,
rate-limit errors rethrown unwrapped).  The second component records whether a
provider call was issued. -/
def attemptModel (cfg : Config) (oracle : Nat → String → Except String String)
    (k : Nat) (m : String) : Except String String × List String :=
  match cfg.find m with
  | none => (.error ("Model " ++ m ++ " not found in configuration"), [])
  | some mi =>
    match oracle k m with
    | .ok r => (.ok r, [m])
    | .error e =>
      if mi.tier == "free" then
        (.error ("OpenCode execution failed: " ++ e), [m])
      else if isRateLimitError e then
        (.error e, [m])
      else
        (.error ("Claude execution failed: " ++ e), [m])

/-- The fallback loop of `execute` (src/lib/OpenCodeAgent.js:128-150): walk
`fallbackModels` in configuration order, appending a failed attempt per error
and breaking at the first success.  Returns the accumulated attempts, the
invoked models, and the successful `(fallbackModel, result)` if any. -/
def fallbackLoop (cfg : Config) (oracle : Nat → String → Except String String) :
    List String → Nat → List Attempt →
    List Attempt × List String × Option (String × String)
  | [], _, atts => (atts, [], none)
  | fm :: rest, k, atts =>
    match attemptModel cfg oracle k fm with
    | (.ok r, inv) => (atts, inv, some (fm, r))
    | (.error e, inv) =>
      let next := fallbackLoop cfg oracle rest (k + 1) (atts ++ [⟨fm, e⟩])
      (next.1, inv ++ next.2.1, next.2.2)

/-- Source `execute` (src/lib/OpenCodeAgent.js:90-165).  `cur` is
`this.currentModel`, `optModel` is `options.model`.  Note two source
behaviours preserved here: the first failed attempt records
`this.currentModel` (not the invoked override model), and on an unrecovered
error the function throws *before* the `executionHistory.push`, so nothing is
pushed (`pushed := false`). -/
def execute (cfg : Config) (acfg : AgentConfig) (cur : String)
    (optModel : Option String) (oracle : Nat → String → Except String String) :
    ExecOutcome :=
  match attemptModel cfg oracle 0 (optModel.getD cur) with
  | (.ok r, inv) =>
    { ret := .ok r
      exec := { model := optModel.getD cur, success := true,
                fallbackUsed := false, fallbackModel := none,
                result := some r, errorMsg := none, attempts := [] }
      pushed := true, invoked := inv }
  | (.error e, inv) =>
    if acfg.allowFallback && isRateLimitError e then
      match fallbackLoop cfg oracle acfg.fallbackModels 1 [⟨cur, e⟩] with
      | (atts, inv', some (fm, r)) =>
        { ret := .ok r
          exec := { model := optModel.getD cur, success := true,
                    fallbackUsed := true, fallbackModel := some fm,
                    result := some r, errorMsg := none, attempts := atts }
          pushed := true, invoked := inv ++ inv' }
      | (atts, inv', none) =>
        { ret := .error e
          exec := { model := optModel.getD cur, success := false,
                    fallbackUsed := false, fallbackModel := none,
                    result := none, errorMsg := some e, attempts := atts }
          pushed := false, invoked := inv ++ inv' }
    else
      { ret := .error e
        exec := { model := optModel.getD cur, success := false,
                  fallbackUsed := false, fallbackModel := none,
                  result := none, errorMsg := some e, attempts := [⟨cur, e⟩] }
        pushed := false, invoked := inv }

/-! ## Agency router (`determineAgency`, src/orchestrator.js:112-168) -/

/-- One `agency.json` configuration as read by `determineAgency`.  A missing
`keywords` / `capabilities` field is modelled as `[]` (the JS guard then
iterates nothing); a missing or empty `purpose` is modelled as `""`, which is
falsy in JS, so the purpose bonus is guarded by `purpose ≠ ""`. -/
structure AgencyConfig where
  keywords : List String := []
  capabilities : List String := []
  purpose : String := ""
deriving Repr, DecidableEq

/-- The score `determineAgency` (src/orchestrator.js:118-145) assigns to one
agency configuration for a request. -/
def scoreAgencyConfig (request : String) (c : AgencyConfig) : Int :=
  2 * ((c.keywords.filter fun k => isInfixB (lowerData k) (lowerData request)).length : Int) +
  3 * ((c.capabilities.filter fun k => isInfixB (lowerData k) (lowerData request)).length : Int) +
  (if c.purpose ≠ "" && isInfixB (lowerData c.purpose) (lowerData request) then 5 else 0)

/-- All registered agencies scored in registration order (before the
positive-score filter). -/
def scoredAgencies (configs : List (String × AgencyConfig)) (request : String) :
    List Candidate :=
  configs.enum.map fun p => ⟨p.1, p.2.1, scoreAgencyConfig request p.2.2⟩

/-- Source `determineAgency` (src/orchestrator.js:112-168).  `configs` is
`this.agencyConfigs`, `agencies` the keys of `this.agencies`, both in
insertion order.  The `scores` map holds only positive-scoring agencies; the
stable descending sort by score is realised as a sort by `candLE`.  When no
agency scores positive the source falls back to `'BuildingAgency'` if loaded,
else the first loaded agency (`undefined`, modelled `none`, if there are
none). -/
def determineAgency (configs : List (String × AgencyConfig))
    (agencies : List String) (request : String) : Option String :=
  match (((scoredAgencies configs request).filter
      (fun c => 0 < c.score)).insertionSort candLE).head? with
  | some top => some top.model
  | none =>
    if agencies.contains "BuildingAgency" then some "BuildingAgency"
    else agencies.head?

/-! ## Spec-side definitions used for comparison -/

/-- Modelled from the spec: the claimed per-backend score of §4.2 — weighted
capability matches over the derived required-capability tags (+5 coding,
+4 reasoning, +3 fast-responses, +1 any other overlapping tag), a
three-valued complexity bonus (High ∧ Paid → +3, Low ∧ Free → +2, Medium →
nothing), and the policy bonus.  Complexity inference follows §4.2 rule 4:
length > 200 or "complex" forces High, otherwise the default Medium. -/
inductive Complexity
  | low
  | medium
  | high
deriving Repr, DecidableEq

/-- Modelled from the spec: §4.2 rule 4 complexity inference. -/
def inferredComplexitySpec (task : String) : Complexity :=
  if isComplexTask task then .high else .medium

/-- Modelled from the spec: `Task.requiredCapabilities`, the capability tags
derived from the description heuristics. -/
def requiredCapabilitiesSpec (task : String) : List String :=
  (if needsCoding task then ["coding"] else []) ++
  (if needsReasoning task then ["reasoning"] else []) ++
  (if needsSpeed task then ["fast-responses"] else [])

/-- Modelled from the spec: the weight of one matched capability tag. -/
def tagWeight (tag : String) : Int :=
  if tag = "coding" then 5
  else if tag = "reasoning" then 4
  else if tag = "fast-responses" then 3
  else 1

/-- Modelled from the spec: the full claimed scoring formula of claim C6. -/
def scoreSpecC6 (task : String) (prefs : Preferences) (mi : ModelInfo) : Int :=
  ((requiredCapabilitiesSpec task).filter
      (fun t => mi.capabilities.contains t)).foldl
    (fun acc t => acc + tagWeight t) 0 +
  (match inferredComplexitySpec task with
   | .high => if mi.tier == "paid" then 3 else 0
   | .low => if mi.tier == "free" then 2 else 0
   | .medium => 0) +
  (if prefs.preferFree && mi.tier == "free" then 5 else 0) +
  (if prefs.preferPaid && mi.tier == "paid" then 5 else 0)

/-- The amended scoring formula for claim C6: same capability weighting over
the derived tags (no other tag is ever derived, so the +1 rule never fires),
but complexity is two-valued exactly as in the source — a complex task earns
+3 on a Paid tier, a non-complex task earns +2 on a Free tier. -/
def scoreAmendedC6 (task : String) (prefs : Preferences) (mi : ModelInfo) :
    Int :=
  ((requiredCapabilitiesSpec task).filter
      (fun t => mi.capabilities.contains t)).foldl
    (fun acc t => acc + tagWeight t) 0 +
  (if isComplexTask task then (if mi.tier == "paid" then 3 else 0)
   else (if mi.tier == "free" then 2 else 0)) +
  (if prefs.preferFree && mi.tier == "free" then 5 else 0) +
  (if prefs.preferPaid && mi.tier == "paid" then 5 else 0)

/-- Modelled from the spec: the selection rule asserted by claim C8 — among
*all* registered work-groups, pick the highest total score, ties broken by
registration order (first registered wins). -/
def claimC8Select (configs : List (String × AgencyConfig)) (request : String) :
    Option String :=
  (((scoredAgencies configs request).insertionSort candLE).head?).map
    Candidate.model

/-! ## Concrete fixtures used by counterexamples and witnesses -/

/-- A three-model registry: a primary with the coding capability and two
plain free models, as in the shipped `agent-config.json` shape. -/
def cfgX : Config :=
  ⟨[("m1", ⟨"m1-model", "free", ["coding"], "local"⟩),
    ("f1", ⟨"f1-model", "free", [], "local"⟩),
    ("f2", ⟨"f2-model", "free", [], "local"⟩)]⟩

/-- The empty model registry. -/
def cfgEmpty : Config := ⟨[]⟩

/-- A free-tier backend with no capability tags. -/
def miPlainFree : ModelInfo := ⟨"m-free", "free", [], "local"⟩

/-- An environment in which every provider call is rate limited. -/
def oracleRateLimited : Nat → String → Except String String :=
  fun _ _ => .error "rate limit"

/-- An environment in which every provider call fails fatally. -/
def oracleFatal : Nat → String → Except String String :=
  fun _ _ => .error "boom"

/-- An environment in which every provider call succeeds. -/
def oracleOk : Nat → String → Except String String :=
  fun _ _ => .ok "done"

/-- An environment whose first call is rate limited and whose later calls
fail with a non-transient error. -/
def oracleThenFatal : Nat → String → Except String String :=
  fun k _ => if k == 0 then .error "429" else .error "boom"

/-- Two agencies neither of which matches the request "hello". -/
def cfgsTie : List (String × AgencyConfig) :=
  [("Alpha", ⟨["api"], [], ""⟩), ("BuildingAgency", ⟨[], [], ""⟩)]

/-- The loaded-agency keys matching `cfgsTie`. -/
def agenciesTie : List String := ["Alpha", "BuildingAgency"]

/-- The Web/Backend work-group pair of spec Scenario E. -/
def cfgsWeb : List (String × AgencyConfig) :=
  [("Web", ⟨["frontend", "react"], [], ""⟩),
   ("Backend", ⟨["api", "database"], [], ""⟩)]

/-- The loaded-agency keys matching `cfgsWeb`. -/
def agenciesWeb : List String := ["Web", "Backend"]

/-- A single registered agency that is not the `BuildingAgency` default. -/
def cfgsSolo : List (String × AgencyConfig) := [("Web", ⟨["frontend"], [], ""⟩)]

/-- The loaded-agency keys matching `cfgsSolo`. -/
def agenciesSolo : List String := ["Web"]

/-- A concrete agent state for the `switchModel` witness. -/
def stX : AgentState := ⟨"m1", some "sess-1", 2⟩

theorem isPrefixB_iff (pat l : List Char) :
    isPrefixB pat l = true ↔ ∃ t, l = pat ++ t := by
  induction pat generalizing l with
  | nil => simp [isPrefixB]
  | cons a as ih =>
    cases l with
    | nil => simp [isPrefixB]
    | cons b bs =>
      simp only [isPrefixB, Bool.and_eq_true, beq_iff_eq, ih, List.cons_append,
        List.cons.injEq]
      constructor
      · rintro ⟨rfl, t, rfl⟩; exact ⟨t, rfl, rfl⟩
      · rintro ⟨t, rfl, rfl⟩; exact ⟨rfl, t, rfl⟩

theorem isInfixB_iff (pat l : List Char) :
    isInfixB pat l = true ↔ ∃ s t, l = s ++ pat ++ t := by
  induction l with
  | nil =>
    simp only [isInfixB, List.isEmpty_iff]
    constructor
    · rintro rfl; exact ⟨[], [], rfl⟩
    · rintro ⟨s, t, h⟩
      rcases List.append_eq_nil.mp (List.append_eq_nil.mp h.symm).1 with ⟨-, h2⟩
      exact h2
  | cons b bs ih =>
    simp only [isInfixB, Bool.or_eq_true, isPrefixB_iff, ih]
    constructor
    · rintro (⟨t, ht⟩ | ⟨s, t, rfl⟩)
      · exact ⟨[], t, by simpa using ht⟩
      · exact ⟨b :: s, t, rfl⟩
    · rintro ⟨s, t, h⟩
      cases s with
      | nil => exact Or.inl ⟨t, by simpa using h⟩
      | cons c cs =>
        rw [List.cons_append, List.cons_append, List.cons.injEq] at h
        exact Or.inr ⟨cs, t, h.2⟩

-- Helper: infix containment after `map` is containment of a mapped infix.
theorem infix_map_iff (f : Char → Char) (pat : List Char) (l : List Char) :
    (∃ s t, l.map f = s ++ pat ++ t) ↔
      ∃ l' s' t', l = s' ++ l' ++ t' ∧ l'.map f = pat := by
  constructor
  · rintro ⟨s, t, h⟩
    rw [List.append_assoc, List.map_eq_append_iff] at h
    rcases h with ⟨s', u, rfl, hs, hu⟩
    rw [List.map_eq_append_iff] at hu
    rcases hu with ⟨l', t', rfl, hl, ht⟩
    exact ⟨l', s', t', by simp [List.append_assoc], hl⟩
  · rintro ⟨l', s', t', rfl, hmap⟩
    exact ⟨s'.map f, t'.map f, by simp [hmap]⟩

theorem includesLower_iff (s pat : String) :
    includesLower s pat = true ↔
      ∃ l a b, s.data = a ++ l ++ b ∧ l.map Char.toLower = pat.data := by
  rw [includesLower, isInfixB_iff]
  unfold lowerData
  constructor
  · rintro ⟨a, t, h⟩
    rcases (infix_map_iff Char.toLower pat.data s.data).mp ⟨a, t, h⟩ with
      ⟨l', s', t', h1, h2⟩
    exact ⟨l', s', t', h1, h2⟩
  · rintro ⟨l, a, b, h1, h2⟩
    rcases (infix_map_iff Char.toLower pat.data s.data).mpr ⟨l, a, b, h1, h2⟩ with
      ⟨u, v, huv⟩
    exact ⟨u, v, huv⟩

/-! ## Helper lemmas about `attemptModel`, `fallbackLoop` and `execute` -/

theorem attemptModel_invoked_of_found (cfg : Config)
    (oracle : Nat → String → Except String String) (k : Nat) (m : String)
    (h : (cfg.find m).isSome) : (attemptModel cfg oracle k m).2 = [m] := by
  unfold attemptModel
  rcases hf : cfg.find m with - | mi
  · rw [hf] at h; simp at h
  · cases ho : oracle k m with
    | ok r => simp [ho]
    | error e => simp only [ho]; split_ifs <;> simp

theorem attemptModel_invoked_len (cfg : Config)
    (oracle : Nat → String → Except String String) (k : Nat) (m : String) :
    (attemptModel cfg oracle k m).2.length ≤ 1 := by
  unfold attemptModel
  rcases cfg.find m with - | mi
  · simp
  · cases oracle k m with
    | ok r => simp
    | error e => simp only []; split_ifs <;> simp

theorem fallbackLoop_invoked_take (cfg : Config)
    (oracle : Nat → String → Except String String) (fms : List String)
    (hf : ∀ m ∈ fms, (cfg.find m).isSome) :
    ∀ k atts, ∃ n, (fallbackLoop cfg oracle fms k atts).2.1 = fms.take n := by
  induction fms with
  | nil => intro k atts; exact ⟨0, rfl⟩
  | cons fm rest ih =>
    intro k atts
    have hfm : (cfg.find fm).isSome := hf fm (by simp)
    have hrest : ∀ m ∈ rest, (cfg.find m).isSome := fun m hm =>
      hf m (by simp [hm])
    have hinv := attemptModel_invoked_of_found cfg oracle k fm hfm
    unfold fallbackLoop
    rcases hA : attemptModel cfg oracle k fm with ⟨r, inv⟩
    rw [hA] at hinv
    simp only [Prod.snd] at hinv
    cases r with
    | ok v => exact ⟨1, by simp [hinv]⟩
    | error e =>
      rcases ih hrest (k + 1) (atts ++ [⟨fm, e⟩]) with ⟨n, hn⟩
      exact ⟨n + 1, by simp [hinv, hn]⟩

theorem fallbackLoop_attempts_extend (cfg : Config)
    (oracle : Nat → String → Except String String) :
    ∀ (fms : List String) (k : Nat) (atts : List Attempt),
      ∃ ex, (fallbackLoop cfg oracle fms k atts).1 = atts ++ ex := by
  intro fms
  induction fms with
  | nil => intro k atts; exact ⟨[], by simp [fallbackLoop]⟩
  | cons fm rest ih =>
    intro k atts
    unfold fallbackLoop
    rcases hA : attemptModel cfg oracle k fm with ⟨r, inv⟩
    cases r with
    | ok v => exact ⟨[], by simp⟩
    | error e =>
      rcases ih (k + 1) (atts ++ [⟨fm, e⟩]) with ⟨ex, hex⟩
      exact ⟨⟨fm, e⟩ :: ex, by simp [hex]⟩

theorem tagWeight_coding : tagWeight "coding" = 5 := rfl

theorem tagWeight_reasoning : tagWeight "reasoning" = 4 := rfl

theorem tagWeight_fast : tagWeight "fast-responses" = 3 := rfl

theorem capComponent_eq (task : String) (mi : ModelInfo) :
    ((requiredCapabilitiesSpec task).filter
        (fun t => mi.capabilities.contains t)).foldl
      (fun acc t => acc + tagWeight t) 0 =
    (if needsCoding task && mi.capabilities.contains "coding" then 5 else 0) +
    (if needsReasoning task && mi.capabilities.contains "reasoning" then 4
     else 0) +
    (if needsSpeed task && mi.capabilities.contains "fast-responses" then 3
     else 0) := by
  unfold requiredCapabilitiesSpec
  cases hc : needsCoding task <;> cases hr : needsReasoning task <;>
    cases hs : needsSpeed task <;>
    by_cases h1 : "coding" ∈ mi.capabilities <;>
    by_cases h2 : "reasoning" ∈ mi.capabilities <;>
    by_cases h3 : "fast-responses" ∈ mi.capabilities <;>
    simp [h1, h2, h3, tagWeight_coding, tagWeight_reasoning, tagWeight_fast]

theorem compComponent_eq (task : String) (mi : ModelInfo) :
    (if isComplexTask task && mi.tier == "paid" then (3 : Int)
     else if !isComplexTask task && mi.tier == "free" then 2 else 0) =
    (if isComplexTask task then (if mi.tier == "paid" then (3 : Int) else 0)
     else (if mi.tier == "free" then 2 else 0)) := by
  cases hx : isComplexTask task <;>
    by_cases hp : (mi.tier == "paid") = true <;>
    by_cases hf : (mi.tier == "free") = true <;>
    simp [hp, hf]

end TmuxOrch

open TmuxOrch

/-- Claim C3: `isRateLimitError` classifies an error as transient precisely when
its message, compared case-insensitively, contains one of "rate limit",
"429", "too many requests" or "quota exceeded"; every other message is
treated as non-transient. -/
theorem c3_rate_limit_classification (msg : String) :
    isRateLimitError msg = true ↔
      ∃ p ∈ transientMarkers, containsCaseInsensitive msg p := by
  simp only [isRateLimitError, Bool.or_eq_true, includesLower_iff,
    transientMarkers, containsCaseInsensitive]
  constructor
  · rintro (((h | h) | h) | h)
    · exact ⟨"rate limit", by simp, h⟩
    · exact ⟨"429", by simp, h⟩
    · exact ⟨"too many requests", by simp, h⟩
    · exact ⟨"quota exceeded", by simp, h⟩
  · rintro ⟨p, hp, h⟩
    simp only [List.mem_cons, List.not_mem_nil, or_false] at hp
    rcases hp with rfl | rfl | rfl | rfl
    · exact Or.inl (Or.inl (Or.inl h))
    · exact Or.inl (Or.inl (Or.inr h))
    · exact Or.inl (Or.inr h)
    · exact Or.inr h

/-- Claim C4 counterexample: A task whose only attempt fails fatally ends with
`execute` throwing, and the execution history gains *no* record: the claim
that every terminal outcome appends exactly one execution record fails on the
error path (`throw error` at src/lib/OpenCodeAgent.js:156 runs before the
`executionHistory.push` at line 161). -/
theorem c4_counterexample :
    (execute cfgX ⟨true, ["f1", "f2"]⟩ "m1" none oracleFatal).pushed = false ∧
    (execute cfgX ⟨true, ["f1", "f2"]⟩ "m1" none oracleFatal).ret =
      .error "OpenCode execution failed: boom" := by
  constructor <;> rfl

/-- Claim C4 amended: `execute` appends an execution record to the agent's
history exactly when it returns successfully (directly or via fallback); when
it ends by raising an error, nothing is appended and the attempt trail in the
local record is discarded. -/
theorem c4_amended_record_pushed_iff_success (cfg : Config)
    (acfg : AgentConfig) (cur : String) (optModel : Option String)
    (oracle : Nat → String → Except String String) :
    (execute cfg acfg cur optModel oracle).pushed = true ↔
      ∃ r, (execute cfg acfg cur optModel oracle).ret = .ok r := by
  unfold execute
  rcases hA : attemptModel cfg oracle 0 (optModel.getD cur) with ⟨r, inv⟩
  cases r with
  | ok v => simp
  | error e =>
    simp only []
    split
    · rcases hL : fallbackLoop cfg oracle acfg.fallbackModels 1
          [⟨cur, e⟩] with ⟨atts, inv', res⟩
      rcases res with - | ⟨fm, rr⟩
      · simp
      · simp
    · simp

/-- Claim C1 counterexample: With the primary model itself listed in the
configured `fallbackModels`, a transient failure makes attempt 2 invoke the
very backend attempt 1 already used: the provider is called twice for `m1`,
refuting both "ranked immediately below in the original scored candidate
list" (no scored list is consulted by `execute`) and "no backend equal to an
already-attempted backend is ever invoked again". -/
theorem c1_counterexample :
    (execute cfgX ⟨true, ["m1"]⟩ "m1" none oracleRateLimited).invoked =
      ["m1", "m1"] ∧
    (execute cfgX ⟨true, ["m1"]⟩ "m1" none oracleRateLimited).exec.attempts.map
      Attempt.model = ["m1", "m1"] := ⟨rfl, rfl⟩

/-- Claim C1 amended: After a transient first failure (with fallback enabled
and all involved models present in the registry) the backends invoked for the
task are exactly the first model followed by an initial segment of the
agent's configured `fallbackModels` list, in configuration order; the scored
candidate ranking plays no role, and nothing prevents a configured fallback
entry from repeating an already-attempted backend. -/
theorem c1_amended_fallback_follows_config_list (cfg : Config)
    (acfg : AgentConfig) (cur : String) (optModel : Option String)
    (oracle : Nat → String → Except String String) (e : String)
    (h1 : (attemptModel cfg oracle 0 (optModel.getD cur)).1 = .error e)
    (h2 : isRateLimitError e = true) (h3 : acfg.allowFallback = true)
    (h4 : (cfg.find (optModel.getD cur)).isSome)
    (h5 : ∀ m ∈ acfg.fallbackModels, (cfg.find m).isSome) :
    ∃ n, (execute cfg acfg cur optModel oracle).invoked =
      (optModel.getD cur) :: acfg.fallbackModels.take n := by
  have hinv := attemptModel_invoked_of_found cfg oracle 0 (optModel.getD cur)
    h4
  unfold execute
  rcases hA : attemptModel cfg oracle 0 (optModel.getD cur) with ⟨r, inv⟩
  rw [hA] at h1 hinv
  simp only [Prod.fst] at h1
  simp only [Prod.snd] at hinv
  subst h1
  simp only [h3, h2, Bool.and_self, if_true]
  rcases hL : fallbackLoop cfg oracle acfg.fallbackModels 1
      [⟨cur, e⟩] with ⟨atts, inv', res⟩
  obtain ⟨n, hn⟩ := fallbackLoop_invoked_take cfg oracle
    acfg.fallbackModels h5 1 [⟨cur, e⟩]
  rw [hL] at hn
  simp only [Prod.snd, Prod.fst] at hn
  rcases res with - | ⟨fm, rr⟩
  · exact ⟨n, by simp [hinv, hn]⟩
  · exact ⟨n, by simp [hinv, hn]⟩

/-- Claim C1 amended witness: Concrete instantiation: primary `m1` rate
limited, fallbacks `f1`, `f2` also rate limited — the invoked chain is `m1`
followed by a prefix of the configured fallback list. -/
theorem c1_amended_witness :
    ∃ n, (execute cfgX ⟨true, ["f1", "f2"]⟩ "m1" none
      oracleRateLimited).invoked = "m1" :: List.take n ["f1", "f2"] :=
  c1_amended_fallback_follows_config_list cfgX ⟨true, ["f1", "f2"]⟩ "m1" none
    oracleRateLimited "OpenCode execution failed: rate limit" rfl (by decide)
    rfl (by decide) (by decide)

/-- Claim C2 counterexample: First attempt rate limited, first fallback attempt
failing with the non-transient error "boom": the fallback loop nevertheless
continues and invokes the third candidate (`f2`), so the attempts list has
length 3, not (index of the fatal attempt) + 1 = 2.  Fatal classification
stops the coordinator only on the first attempt. -/
theorem c2_counterexample :
    (execute cfgX ⟨true, ["f1", "f2"]⟩ "m1" none
        oracleThenFatal).exec.attempts =
      [⟨"m1", "OpenCode execution failed: 429"⟩,
       ⟨"f1", "OpenCode execution failed: boom"⟩,
       ⟨"f2", "OpenCode execution failed: boom"⟩] ∧
    isRateLimitError "OpenCode execution failed: boom" = false ∧
    (execute cfgX ⟨true, ["f1", "f2"]⟩ "m1" none oracleThenFatal).invoked =
      ["m1", "f1", "f2"] := ⟨rfl, by decide, rfl⟩

/-- Claim C2 amended: A fatal (non-transient) classification short-circuits
only when it occurs on the *first* attempt: then no fallback candidate is
invoked, the recorded attempts list is exactly the one failed attempt, the
original error is rethrown at once, and no record reaches the history.
A fatal error during a fallback attempt does not stop the loop. -/
theorem c2_amended_fatal_short_circuit_first_attempt_only (cfg : Config)
    (acfg : AgentConfig) (cur : String) (optModel : Option String)
    (oracle : Nat → String → Except String String) (e : String)
    (h1 : (attemptModel cfg oracle 0 (optModel.getD cur)).1 = .error e)
    (h2 : isRateLimitError e = false) :
    (execute cfg acfg cur optModel oracle).ret = .error e ∧
    (execute cfg acfg cur optModel oracle).exec.attempts = [⟨cur, e⟩] ∧
    (execute cfg acfg cur optModel oracle).pushed = false ∧
    (execute cfg acfg cur optModel oracle).invoked.length ≤ 1 := by
  have hlen := attemptModel_invoked_len cfg oracle 0 (optModel.getD cur)
  unfold execute
  rcases hA : attemptModel cfg oracle 0 (optModel.getD cur) with ⟨r, inv⟩
  rw [hA] at h1 hlen
  simp only [Prod.fst] at h1
  simp only [Prod.snd] at hlen
  subst h1
  simp only [h2, Bool.and_false, Bool.false_eq_true, if_false]
  simpa using hlen

/-- Claim C2 amended witness: Concrete instantiation: a single fatal first
failure with fallback configured — no fallback candidate is invoked and the
error is rethrown. -/
theorem c2_amended_witness :
    (execute cfgX ⟨true, ["f1", "f2"]⟩ "m1" none oracleFatal).ret =
      .error "OpenCode execution failed: boom" ∧
    (execute cfgX ⟨true, ["f1", "f2"]⟩ "m1" none oracleFatal).exec.attempts =
      [⟨"m1", "OpenCode execution failed: boom"⟩] ∧
    (execute cfgX ⟨true, ["f1", "f2"]⟩ "m1" none oracleFatal).pushed = false ∧
    (execute cfgX ⟨true, ["f1", "f2"]⟩ "m1" none
        oracleFatal).invoked.length ≤ 1 :=
  c2_amended_fatal_short_circuit_first_attempt_only cfgX ⟨true, ["f1", "f2"]⟩
    "m1" none oracleFatal "OpenCode execution failed: boom" rfl (by decide)

/-- Claim C5 counterexample: A task that succeeds on the very first invocation
finalizes its execution record with an *empty* attempts list — successful
invocations are never recorded as attempts — refuting "the finalized
execution record's attempts list is non-empty". -/
theorem c5_counterexample :
    (execute cfgX ⟨true, ["f1", "f2"]⟩ "m1" none oracleOk).pushed = true ∧
    (execute cfgX ⟨true, ["f1", "f2"]⟩ "m1" none oracleOk).exec.attempts =
      [] := ⟨rfl, rfl⟩

/-- Claim C5 amended: The record's attempts list holds only *failed*
invocations: it is empty precisely when the first invocation succeeds (such a
record is still finalized, with no attempt entry), and when the first
invocation fails the first recorded attempt carries the agent's
`currentModel` field (which `execute` records, even when an override model
was the one invoked). -/
theorem c5_amended_attempts_record_only_failures (cfg : Config)
    (acfg : AgentConfig) (cur : String) (optModel : Option String)
    (oracle : Nat → String → Except String String) :
    ((execute cfg acfg cur optModel oracle).exec.attempts = [] ↔
      ∃ r, (attemptModel cfg oracle 0 (optModel.getD cur)).1 = .ok r) ∧
    ∀ e, (attemptModel cfg oracle 0 (optModel.getD cur)).1 = .error e →
      (execute cfg acfg cur optModel oracle).exec.attempts.head? =
        some ⟨cur, e⟩ := by
  unfold execute
  rcases hA : attemptModel cfg oracle 0 (optModel.getD cur) with ⟨r, inv⟩
  simp only [Prod.fst]
  cases r with
  | ok v => exact ⟨by simp, by simp⟩
  | error e =>
    constructor
    · simp only []
      split
      · rcases hL : fallbackLoop cfg oracle acfg.fallbackModels 1
            [⟨cur, e⟩] with ⟨atts, inv', res⟩
        obtain ⟨ex, hex⟩ := fallbackLoop_attempts_extend cfg oracle
          acfg.fallbackModels 1 [⟨cur, e⟩]
        rw [hL] at hex
        simp only [Prod.fst] at hex
        rcases res with - | ⟨fm, rr⟩ <;> simp [hex]
      · simp
    · intro e' he'
      simp only [Except.error.injEq] at he'
      subst he'
      simp only []
      split
      · rcases hL : fallbackLoop cfg oracle acfg.fallbackModels 1
            [⟨cur, e⟩] with ⟨atts, inv', res⟩
        obtain ⟨ex, hex⟩ := fallbackLoop_attempts_extend cfg oracle
          acfg.fallbackModels 1 [⟨cur, e⟩]
        rw [hL] at hex
        simp only [Prod.fst] at hex
        rcases res with - | ⟨fm, rr⟩ <;> simp [hex]
      · simp

/-- Claim C5 amended witness: Concrete instantiations of both halves: a
first-try success yields an empty attempts list, and a first-try failure puts
the agent's current model at the head of the attempts list. -/
theorem c5_amended_witness :
    (execute cfgX ⟨true, ["f1", "f2"]⟩ "m1" none oracleOk).exec.attempts =
      [] ∧
    (execute cfgX ⟨true, []⟩ "m1" none oracleFatal).exec.attempts.head? =
      some ⟨"m1", "OpenCode execution failed: boom"⟩ :=
  ⟨(c5_amended_attempts_record_only_failures cfgX ⟨true, ["f1", "f2"]⟩ "m1"
      none oracleOk).1.mpr ⟨"done", rfl⟩,
   (c5_amended_attempts_record_only_failures cfgX ⟨true, []⟩ "m1" none
      oracleFatal).2 "OpenCode execution failed: boom" rfl⟩

/-- Claim C6 counterexample: For the short marker-free task "hi" (which the
spec's own derivation rules classify as Medium complexity, earning no bonus)
and a capability-less Free backend with no policy flags, the source scores 2
(its complexity rule is two-valued: any non-complex task earns +2 on a Free
tier), while the claimed formula yields 0 — so the code score does not equal
the claimed additive sum. -/
theorem c6_counterexample :
    scoreModel "hi" ⟨false, false⟩ miPlainFree = 2 ∧
    scoreSpecC6 "hi" ⟨false, false⟩ miPlainFree = 0 := by decide

/-- Claim C6 amended: The source's score is the additive sum of: the weighted
capability matches over the three derived needs (+5 coding, +4 reasoning,
+3 fast-responses; no other capability tag is ever derived, so no +1 rule
exists), a *two-valued* complexity bonus (complex task ∧ Paid tier → +3,
non-complex task ∧ Free tier → +2 — there is no neutral Medium band), and +5
per matching policy-preference flag. -/
theorem c6_amended_score_formula (task : String) (prefs : Preferences)
    (mi : ModelInfo) :
    scoreModel task prefs mi = scoreAmendedC6 task prefs mi := by
  unfold scoreModel scoreAmendedC6
  rw [capComponent_eq, compComponent_eq]

/-- Claim C7: The capability scorer is total and well-ordered: the ranked list
is a permutation of the registry scored in insertion order, it is sorted by
descending score with ties broken by registry position (first registered
wins), it is empty exactly when the registry is empty, and
`recommendModelForTask` yields a recommendation exactly when the registry is
non-empty (on an empty registry it fails, modelled as `none`). -/
theorem c7_scorer_ranking (cfg : Config) (task : String) (prefs : Preferences) :
    (rankCandidates cfg task prefs).Perm (scoredList cfg task prefs) ∧
    List.Sorted candLE (rankCandidates cfg task prefs) ∧
    (rankCandidates cfg task prefs = [] ↔ cfg.models = []) ∧
    ((recommendModelForTask cfg task prefs).isSome = true ↔
      cfg.models ≠ []) := by
  have hperm := List.perm_insertionSort candLE (scoredList cfg task prefs)
  have hlen : (rankCandidates cfg task prefs).length =
      (scoredList cfg task prefs).length := hperm.length_eq
  have hlen2 : (scoredList cfg task prefs).length = cfg.models.length := by
    simp [scoredList]
  have hempty : rankCandidates cfg task prefs = [] ↔ cfg.models = [] := by
    rw [← List.length_eq_zero, hlen, hlen2, List.length_eq_zero]
  refine ⟨hperm, List.sorted_insertionSort candLE _, hempty, ?_⟩
  unfold recommendModelForTask
  rcases hR : rankCandidates cfg task prefs with - | ⟨best, rest⟩
  · simp [hempty.mp hR]
  · have hne : cfg.models ≠ [] := by
      intro hm
      rw [hempty.mpr hm] at hR
      cases hR
    simp [hne]

/-- Claim C8 counterexample: For the directive "hello", neither registered
work-group matches (every score is zero) and the router selects the
fallback `BuildingAgency` — registered *second* — whereas the claimed rule
(highest total score, ties broken by registration order) would select the
first-registered `Alpha`: the claim does not hold on zero-score directives. -/
theorem c8_counterexample :
    determineAgency cfgsTie agenciesTie "hello" = some "BuildingAgency" ∧
    claimC8Select cfgsTie "hello" = some "Alpha" ∧
    (∀ c ∈ scoredAgencies cfgsTie "hello", c.score = 0) := by
  refine ⟨rfl, rfl, ?_⟩
  decide

/-- Claim C8 amended: On every directive for which at least one registered
work-group scores above zero, the router selects a positively-scoring
work-group whose score is maximal among all registered work-groups, with ties
broken by registration order (first registered wins); the fallback path is
reserved for directives on which no work-group scores above zero. -/
theorem c8_amended_positive_score_selection
    (configs : List (String × AgencyConfig)) (agencies : List String)
    (request : String)
    (h : ∃ c ∈ scoredAgencies configs request, 0 < c.score) :
    ∃ c, determineAgency configs agencies request = some c.model ∧
      c ∈ scoredAgencies configs request ∧ 0 < c.score ∧
      ∀ x ∈ scoredAgencies configs request,
        x.score < c.score ∨ (x.score = c.score ∧ c.idx ≤ x.idx) := by
  obtain ⟨c0, hc0, hpos0⟩ := h
  have hc0P : c0 ∈ (scoredAgencies configs request).filter
      (fun c => 0 < c.score) :=
    List.mem_filter.mpr ⟨hc0, by simpa using hpos0⟩
  have hperm := List.perm_insertionSort candLE
    ((scoredAgencies configs request).filter (fun c => 0 < c.score))
  have hsorted := List.sorted_insertionSort candLE
    ((scoredAgencies configs request).filter (fun c => 0 < c.score))
  unfold determineAgency
  rcases hS : ((scoredAgencies configs request).filter
      (fun c => 0 < c.score)).insertionSort candLE with - | ⟨c, t⟩
  · rw [hS] at hperm
    have := hperm.symm.subset hc0P
    cases this
  · rw [hS] at hperm hsorted
    rw [hS]
    have hcP : c ∈ (scoredAgencies configs request).filter
        (fun c => 0 < c.score) := hperm.subset (List.mem_cons_self c t)
    have hcL : c ∈ scoredAgencies configs request :=
      (List.mem_filter.mp hcP).1
    have hcpos : 0 < c.score := by
      have := (List.mem_filter.mp hcP).2
      simpa using this
    refine ⟨c, rfl, hcL, hcpos, ?_⟩
    intro x hx
    by_cases hxpos : 0 < x.score
    · have hxP : x ∈ (scoredAgencies configs request).filter
          (fun c => 0 < c.score) :=
        List.mem_filter.mpr ⟨hx, by simpa using hxpos⟩
      have hxS : x ∈ c :: t := hperm.mem_iff.mpr hxP
      rcases List.mem_cons.mp hxS with rfl | hxt
      · exact Or.inr ⟨rfl, le_refl _⟩
      · have hrel : candLE c x :=
          (List.sorted_cons.mp hsorted).1 x hxt
        rcases hrel with hlt | ⟨heq, hidx⟩
        · exact Or.inl hlt
        · exact Or.inr ⟨heq.symm, hidx⟩
    · exact Or.inl (by omega)

/-- Claim C8 amended witness: Spec Scenario E: directive "Build the checkout
frontend" with the Web/Backend pair — Web scores positively (keyword
"frontend"), so the router selects a maximal positively-scoring work-group. -/
theorem c8_amended_witness :
    ∃ c, determineAgency cfgsWeb agenciesWeb "Build the checkout frontend" =
        some c.model ∧
      c ∈ scoredAgencies cfgsWeb "Build the checkout frontend" ∧
      0 < c.score ∧
      ∀ x ∈ scoredAgencies cfgsWeb "Build the checkout frontend",
        x.score < c.score ∨ (x.score = c.score ∧ c.idx ≤ x.idx) :=
  c8_amended_positive_score_selection cfgsWeb agenciesWeb
    "Build the checkout frontend" (by decide)

/-- Claim C9 counterexample: A zero-score directive with no `BuildingAgency`
registered: the router does not fail — it silently selects the first loaded
agency (`Web`), a work-group other than the designated default, refuting
"otherwise fails with NoRouteFoundError; no work-group other than the default
is ever selected". -/
theorem c9_counterexample :
    determineAgency cfgsSolo agenciesSolo "zzz" = some "Web" ∧
    (∀ c ∈ scoredAgencies cfgsSolo "zzz", c.score ≤ 0) ∧
    agenciesSolo.contains "BuildingAgency" = false := by
  refine ⟨rfl, ?_, rfl⟩
  decide

/-- Claim C9 amended: On a directive for which no registered work-group
scores above zero, the router selects `BuildingAgency` when it is among the
loaded agencies, otherwise the *first loaded agency*; it fails
(returns nothing) only when no agency is loaded at all. -/
theorem c9_amended_zero_score_fallback
    (configs : List (String × AgencyConfig)) (agencies : List String)
    (request : String)
    (h : ∀ c ∈ scoredAgencies configs request, c.score ≤ 0) :
    determineAgency configs agencies request =
      if agencies.contains "BuildingAgency" then some "BuildingAgency"
      else agencies.head? := by
  unfold determineAgency
  have hfil : (scoredAgencies configs request).filter
      (fun c => 0 < c.score) = [] := by
    rw [List.filter_eq_nil_iff]
    intro a ha
    have := h a ha
    simp only [decide_eq_true_eq]
    omega
  rw [hfil]
  rfl

/-- Claim C9 amended witness: Concrete instantiation: the zero-score directive
"hello" against the Alpha/BuildingAgency registry selects the registered
default `BuildingAgency`. -/
theorem c9_amended_witness :
    determineAgency cfgsTie agenciesTie "hello" =
      if agenciesTie.contains "BuildingAgency" then some "BuildingAgency"
      else agenciesTie.head? :=
  c9_amended_zero_score_fallback cfgsTie agenciesTie "hello" (by decide)

/-- Claim C10: `switchModel` is atomic on its validation error: a name absent
from the loaded model configuration makes it throw, leaving every field of
the agent state unchanged (the throw happens before any assignment), while a
present name sets `currentModel` to exactly that name and touches nothing
else. -/
theorem c10_switch_model_atomic (cfg : Config) (st : AgentState)
    (name : String) :
    (cfg.find name = none →
      switchModel cfg st name =
        .error ("Model " ++ name ++ " not found in configuration")) ∧
    ∀ mi, cfg.find name = some mi →
      switchModel cfg st name =
        .ok { currentModel := name, sessionId := st.sessionId,
              fallbackCount := st.fallbackCount } := by
  unfold switchModel
  constructor
  · intro h
    simp [h]
  · intro mi h
    simp [h]

/-- Claim C10 witness: Concrete instantiations of both branches: switching to
an unknown name throws with the state untouched, switching to `f1` sets
`currentModel := "f1"` and preserves the session and fallback counter. -/
theorem c10_witness :
    switchModel cfgX stX "zzz" =
      .error "Model zzz not found in configuration" ∧
    switchModel cfgX stX "f1" = .ok ⟨"f1", some "sess-1", 2⟩ :=
  ⟨(c10_switch_model_atomic cfgX stX "zzz").1 rfl,
   (c10_switch_model_atomic cfgX stX "f1").2 ⟨"f1-model", "free", [], "local"⟩
     rfl⟩
